import Mathlib

/-!
Verification development for the flood-alert telemetry pipeline
(app/hq/hq_model.py, app/qc/rules.py, app/ingest/telemetry_schema.py,
app/storage/db.py, app/workers/alerting.py).

Modelling conventions (shallow embedding):
* Python floats are modelled as rationals.  A float that may be absent
  (Python None / SQL NULL) is an Option value; an input float that may be
  non-finite (NaN or infinity, only relevant for the calibrator's input
  filtering) is likewise an Option value, none standing for a non-finite
  entry.  The rmse field, which the code can set to float inf, uses the
  two-constructor type RExt below.
* The transcendental kernels used by the numerical code (x ** y, np.log,
  np.exp, np.sqrt and numpy elementwise power) are not algebraically
  specified by the program; they are passed explicitly as a NumOps record
  so every definition stays executable and the control flow and rational
  arithmetic of hq_model.py are captured exactly.
* scipy.optimize.curve_fit is an external library call wrapped in
  try/except; it is modelled as an oracle parameter returning
  Option (a, b, H0): some popt when the solver converges, none when scipy
  is unavailable or the call raises.
* Timestamps handled by Database.value_10m_ago are modelled as integer
  seconds; ten minutes is 600 seconds.
-/

namespace FloodAlert

/-- Transcendental kernels of hq_model.py, passed as parameters so the
embedding stays executable: powf models the binary ** and np.power,
logf models np.log, expf models np.exp, sqrtf models np.sqrt. -/
structure NumOps where
  powf : ℚ → ℚ → ℚ
  logf : ℚ → ℚ
  expf : ℚ → ℚ
  sqrtf : ℚ → ℚ

/-- A float extended with plus infinity, for the rmse field of FitResult
(the insufficient-data sentinel stores float inf there). -/
inductive RExt where
  | fin : ℚ → RExt
  | inf : RExt
deriving DecidableEq, Repr

/-- hq_model.compute_h_q: None propagates, H_eff <= 0 yields exactly 0.0,
otherwise a * H_eff ** b.  The try/except around the power never fires for
finite rational inputs. -/
def compute_h_q (ops : NumOps) (H_eff : Option ℚ) (a b : ℚ) : Option ℚ :=
  match H_eff with
  | none => none
  | some he => if he ≤ 0 then some 0 else some (a * ops.powf he b)

/-- hq_model.FitResult. -/
structure FitResult where
  a : ℚ
  b : ℚ
  H0_m : ℚ
  r2 : ℚ
  rmse : RExt
deriving DecidableEq, Repr

/-- Sum of a list of rationals (np.sum / the summations in hq_model). -/
def qsum (l : List ℚ) : ℚ := l.foldl (· + ·) 0

/-- hq_model._r2_rmse on same-length lists of finite values (both call
sites pass same-length NaN-free arrays): ss_res and ss_tot as in the
source, r2 = 1 - ss_res/ss_tot when ss_tot > 0 else 0.0, and
rmse = sqrt(ss_res / max(1, n)). -/
def r2_rmse (ops : NumOps) (y_true y_pred : List ℚ) : ℚ × ℚ :=
  let n := y_true.length
  let mean := qsum y_true / (n : ℚ)
  let ss_res := (y_true.zip y_pred).foldl (fun s p => s + (p.1 - p.2) ^ 2) 0
  let ss_tot := y_true.foldl (fun s t => s + (t - mean) ^ 2) 0
  let r2 := if 0 < ss_tot then 1 - ss_res / ss_tot else 0
  let rmse := ops.sqrtf (ss_res / (max 1 n : ℚ))
  (r2, rmse)

/-- The mask step of hq_model.fit_hq_params: keep pairs where both entries
are finite and Q > 0 (none models a non-finite float). -/
def usable_pairs (H Q : List (Option ℚ)) : List (ℚ × ℚ) :=
  (H.zip Q).filterMap (fun p =>
    match p with
    | (some h, some q) => if 0 < q then some (h, q) else none
    | _ => none)

/-- The insufficient-data sentinel FitResult(a=1.0, b=1.5, H0_m=0.0,
r2=0.0, rmse=inf) of hq_model.fit_hq_params. -/
def default_fit : FitResult :=
  { a := 1, b := 3 / 2, H0_m := 0, r2 := 0, rmse := RExt.inf }

/-- One iteration of the fallback grid-search loop of
hq_model.fit_hq_params for a candidate H0: clamp to effective head, keep
points with H_eff > 0, require at least 5 of them, ordinary least squares
of log Q on log H_eff, goodness of fit from _r2_rmse applied exactly as in
the source, namely to y = log Q and y_pred = a * exp(b * X), and keep the
candidate only on a strict r2 improvement. -/
def fit_step (ops : NumOps) (Hf Qf : List ℚ) (best : FitResult) (H0 : ℚ) :
    FitResult :=
  let pairs := ((Hf.map (fun h => max 0 (h - H0))).zip Qf).filter
    (fun p => 0 < p.1)
  if pairs.length < 5 then best
  else
    let X := pairs.map (fun p => ops.logf p.1)
    let y := pairs.map (fun p => ops.logf p.2)
    let n : ℚ := (X.length : ℚ)
    let x_mean := qsum X / n
    let y_mean := qsum y / n
    let Sxy := qsum ((X.zip y).map (fun p => (p.1 - x_mean) * (p.2 - y_mean)))
    let Sxx := qsum (X.map (fun v => (v - x_mean) ^ 2))
    if Sxx ≤ 0 then best
    else
      let b := Sxy / Sxx
      let loga := y_mean - b * x_mean
      let a := ops.expf loga
      let y_pred := X.map (fun x => a * ops.expf (b * x))
      let rr := r2_rmse ops y y_pred
      if best.r2 < rr.1 then
        { a := a, b := b, H0_m := H0, r2 := rr.1, rmse := RExt.fin rr.2 }
      else best

/-- Variant of fit_step following the specification's words for the
fallback method (section 4.2 step 4): identical to the source's fit_step
except that r2 and rmse are computed in log space, comparing y = log Q
with the log-space prediction log a + b * X.  It exists only to be
compared with fit_step, which instead feeds _r2_rmse the linear-space
prediction a * exp(b * X). -/
def fit_step_logspace (ops : NumOps) (Hf Qf : List ℚ) (best : FitResult)
    (H0 : ℚ) : FitResult :=
  let pairs := ((Hf.map (fun h => max 0 (h - H0))).zip Qf).filter
    (fun p => 0 < p.1)
  if pairs.length < 5 then best
  else
    let X := pairs.map (fun p => ops.logf p.1)
    let y := pairs.map (fun p => ops.logf p.2)
    let n : ℚ := (X.length : ℚ)
    let x_mean := qsum X / n
    let y_mean := qsum y / n
    let Sxy := qsum ((X.zip y).map (fun p => (p.1 - x_mean) * (p.2 - y_mean)))
    let Sxx := qsum (X.map (fun v => (v - x_mean) ^ 2))
    if Sxx ≤ 0 then best
    else
      let b := Sxy / Sxx
      let loga := y_mean - b * x_mean
      let a := ops.expf loga
      let y_pred := X.map (fun x => loga + b * x)
      let rr := r2_rmse ops y y_pred
      if best.r2 < rr.1 then
        { a := a, b := b, H0_m := H0, r2 := rr.1, rmse := RExt.fin rr.2 }
      else best

/-- The grid np.arange(0.0, 0.1001, 0.001): the 101 candidates
0.000, 0.001, ..., 0.100. -/
def grid101 : List ℚ := (List.range 101).map (fun i : ℕ => (i : ℚ) / 1000)

/-- hq_model.fit_hq_params: mask to usable pairs, sentinel below 5 pairs,
then the curve-fit oracle (scipy) and on its failure the fallback grid
search over grid101 starting from the sentinel. -/
def fit_hq_params (ops : NumOps)
    (cf : List ℚ → List ℚ → Option (ℚ × ℚ × ℚ))
    (H Q : List (Option ℚ)) : FitResult :=
  let pairs := usable_pairs H Q
  let Hf := pairs.map Prod.fst
  let Qf := pairs.map Prod.snd
  if pairs.length < 5 then default_fit
  else
    match cf Hf Qf with
    | some (a, b, H0) =>
        let y_pred := Hf.map (fun h => a * ops.powf (max 0 (h - H0)) b)
        let rr := r2_rmse ops Qf y_pred
        { a := a, b := b, H0_m := H0, r2 := rr.1, rmse := RExt.fin rr.2 }
    | none => grid101.foldl (fit_step ops Hf Qf) default_fit

/-- Companion to fit_hq_params built from fit_step_logspace, the
specification-following variant of the fallback loop; used only to
exhibit where the source diverges from the specification's
"r2/rmse in log space". -/
def fit_hq_params_logspace (ops : NumOps)
    (cf : List ℚ → List ℚ → Option (ℚ × ℚ × ℚ))
    (H Q : List (Option ℚ)) : FitResult :=
  let pairs := usable_pairs H Q
  let Hf := pairs.map Prod.fst
  let Qf := pairs.map Prod.snd
  if pairs.length < 5 then default_fit
  else
    match cf Hf Qf with
    | some (a, b, H0) =>
        let y_pred := Hf.map (fun h => a * ops.powf (max 0 (h - H0)) b)
        let rr := r2_rmse ops Qf y_pred
        { a := a, b := b, H0_m := H0, r2 := rr.1, rmse := RExt.fin rr.2 }
    | none => grid101.foldl (fit_step_logspace ops Hf Qf) default_fit

/-- First qc.rules rule: dist_m present and not in [0.05, 5.0]. -/
def flag_dist (dist_m : Option ℚ) : List String :=
  match dist_m with
  | some d => if 1 / 20 ≤ d ∧ d ≤ 5 then [] else ["OUT_OF_RANGE_DIST"]
  | none => []

/-- Second qc.rules rule: H_m present and below -0.02. -/
def flag_negh (H_m : Option ℚ) : List String :=
  match H_m with
  | some h => if h < -(1 / 50) then ["NEG_H"] else []
  | none => []

/-- Third qc.rules rule: dH_10m present with absolute value at least 0.15. -/
def flag_spike (dH_10m : Option ℚ) : List String :=
  match dH_10m with
  | some dh => if 3 / 20 ≤ |dh| then ["SPIKES_H"] else []
  | none => []

/-- Fourth qc.rules rule: Q_m3s present and negative or above q_max. -/
def flag_qrange (Q_m3s : Option ℚ) (q_max : ℚ) : List String :=
  match Q_m3s with
  | some q => if q < 0 ∨ q_max < q then ["OUT_OF_RANGE_Q"] else []
  | none => []

/-- qc.rules.qc_flags, the list of flags in the fixed evaluation order of
the source (dist range, negative head, head spike, discharge range);
absent inputs raise no flag. -/
def qc_flag_list (dist_m H_m dH_10m Q_m3s : Option ℚ) (q_max : ℚ) :
    List String :=
  flag_dist dist_m ++ flag_negh H_m ++ flag_spike dH_10m ++
    flag_qrange Q_m3s q_max

/-- qc.rules.qc_flags returns the flags joined with a vertical bar. -/
def qc_flags (dist_m H_m dH_10m Q_m3s : Option ℚ) (q_max : ℚ) : String :=
  String.intercalate "|" (qc_flag_list dist_m H_m dH_10m Q_m3s q_max)

/-- One row of the telemetry table (storage/db.py), restricted to the
columns read by Database.value_10m_ago; ts is in integer seconds and is
unique per node (PRIMARY KEY(node_id, ts)). -/
structure TeleRow where
  node_id : String
  ts : ℤ
  H_m : Option ℚ
  Q_m3s : Option ℚ

/-- One step of the maximum-timestamp scan over candidate rows. -/
def latest_step (acc : Option TeleRow) (r : TeleRow) : Option TeleRow :=
  match acc with
  | none => some r
  | some m => if m.ts < r.ts then some r else some m

/-- The row with the greatest timestamp (ORDER BY ts DESC LIMIT 1),
realised as a left fold. -/
def latest_row (l : List TeleRow) : Option TeleRow :=
  l.foldl latest_step none

/-- Database.value_10m_ago: the most recent telemetry row of the node with
ts at or before ts - 10 minutes, returning its (H_m, Q_m3s) columns, which
may each be NULL. -/
def value_10m_ago (table : List TeleRow) (node : String) (ts : ℤ) :
    Option (Option ℚ × Option ℚ) :=
  match latest_row (table.filter
      (fun r => decide (r.node_id = node ∧ r.ts ≤ ts - 600))) with
  | some r => some (r.H_m, r.Q_m3s)
  | none => none

/-- hq_profile row for a node (storage/db.py get_hq defaults:
a=1.0, b=1.5, H0_m=0.0, sensor_height_above_crest_m=1.0). -/
structure HQProfile where
  a : ℚ
  b : ℚ
  H0_m : ℚ
  sensor_height_above_crest_m : ℚ

/-- The derived record assembled by telemetry_schema.process_payload. -/
structure DerivedRecord where
  node_id : String
  ts : ℤ
  dist_m : Option ℚ
  H_m : Option ℚ
  H_eff : Option ℚ
  Q_m3s : Option ℚ
  dH_10m : Option ℚ
  dQ_10m : Option ℚ
  rain_bin : Option ℤ
  batt_v : Option ℚ
  flags : String

/-- telemetry_schema.process_payload as a pure function of the telemetry
table (standing for the Database the code queries): resolve the sensor
height from meta with the profile as fallback, derive H_m, H_eff, Q_m3s
only when dist_m is present, take the historical record from
value_10m_ago, form the 10-minute deltas only when both sides are
present, and attach the QC flags (q_max keeps its default 1000). -/
def process_payload (ops : NumOps) (table : List TeleRow) (hq : HQProfile)
    (node_id : String) (ts : ℤ) (dist_m : Option ℚ) (rain_bin : Option ℤ)
    (batt_v : Option ℚ) (meta_sh : Option ℚ) : DerivedRecord :=
  let sensor_h := meta_sh.getD hq.sensor_height_above_crest_m
  let hM : Option ℚ := dist_m.map (fun d => sensor_h - d)
  let hEff : Option ℚ := hM.map (fun h => max 0 (h - hq.H0_m))
  let q : Option ℚ := compute_h_q ops hEff hq.a hq.b
  let prev := value_10m_ago table node_id ts
  let dH : Option ℚ :=
    match prev, hM with
    | some (some ph, _), some h => some (h - ph)
    | _, _ => none
  let dQ : Option ℚ :=
    match prev, q with
    | some (_, some pq), some qq => some (qq - pq)
    | _, _ => none
  { node_id := node_id, ts := ts, dist_m := dist_m, H_m := hM,
    H_eff := hEff, Q_m3s := q, dH_10m := dH, dQ_10m := dQ,
    rain_bin := rain_bin, batt_v := batt_v,
    flags := qc_flags dist_m hM dH q 1000 }

/-- workers/alerting.AlertState: shared last-emission clock and the
per-rule active map (dict with .get(key, False) semantics). -/
structure AlertState where
  last_ts : ℚ
  active : String → Bool

/-- A row of the alerts table as written by evaluate_and_store via
db.insert_alert. -/
structure AlertRow where
  alert_id : String
  node_id : String
  ts : String
  level : String
  horizon_h : ℤ
  reason : String

/-- The closure _debounced of evaluate_and_store:
(now - state.last_ts) < debounce_s and state.active_levels.get(key, False). -/
def debounced (now : ℚ) (debounce_s : ℤ) (st : AlertState) (key : String) :
    Prop :=
  now - st.last_ts < (debounce_s : ℚ) ∧ st.active key = true

instance (now : ℚ) (debounce_s : ℤ) (st : AlertState) (key : String) :
    Decidable (debounced now debounce_s st key) :=
  inferInstanceAs (Decidable (_ ∧ _))

/-- The early section of rules.yaml; every key is optional and read with a
default by evaluate_and_store. -/
structure EarlyCfg where
  horizon_h : Option ℤ
  prob_min : Option ℚ
  dh10_min : Option ℚ
  rain_next_hour_mmph_min : Option ℚ

/-- The high section of rules.yaml. -/
structure HighCfg where
  horizon_h : Option ℤ
  prob_min : Option ℚ

/-- The rules.yaml mapping as consumed by evaluate_and_store. -/
structure RulesCfg where
  debounce_min : Option ℤ
  early : Option EarlyCfg
  high : Option HighCfg

/-- debounce_s = int(rules.get(debounce_min, 30)) * 60. -/
def debounce_seconds (rules : RulesCfg) : ℤ :=
  rules.debounce_min.getD 30 * 60

/-- The early-rule parameters with their source defaults
(horizon 6 h, prob 0.6, dh10 0.08, rain 10.0). -/
def early_params (rules : RulesCfg) : ℤ × ℚ × ℚ × ℚ :=
  let e := rules.early.getD ⟨none, none, none, none⟩
  (e.horizon_h.getD 6, e.prob_min.getD (3 / 5), e.dh10_min.getD (2 / 25),
    e.rain_next_hour_mmph_min.getD 10)

/-- The high-rule parameters with their source defaults
(horizon 12 h, prob 0.7). -/
def high_params (rules : RulesCfg) : ℤ × ℚ :=
  let h := rules.high.getD ⟨none, none⟩
  (h.horizon_h.getD 12, h.prob_min.getD (7 / 10))

/-- Forecasts as a map horizon -> entry.  none models both a missing
horizon and the falsy empty dict forecasts.get(h, {}); a present truthy
entry carries prob_flood when the key exists (read with default 0.0). -/
def ForecastMap : Type := ℤ → Option (Option ℚ)

/-- The early-rule trigger condition of evaluate_and_store: the forecast
at the early horizon is truthy and (prob_flood >= prob_min or
(dH_10m or 0.0) >= dh10_min and (rain_next_hour or 0.0) >= rain_min). -/
def earlyTrigger (rules : RulesCfg) (forecasts : ForecastMap)
    (dH_10m rain_next_hour : Option ℚ) : Prop :=
  ∃ fc, forecasts (early_params rules).1 = some fc ∧
    ((early_params rules).2.1 ≤ fc.getD 0 ∨
      ((early_params rules).2.2.1 ≤ dH_10m.getD 0 ∧
        (early_params rules).2.2.2 ≤ rain_next_hour.getD 0))

/-- The high-rule trigger condition of evaluate_and_store: the forecast at
the high horizon is truthy and prob_flood >= prob_min. -/
def highTrigger (rules : RulesCfg) (forecasts : ForecastMap) : Prop :=
  ∃ fc, forecasts (high_params rules).1 = some fc ∧
    (high_params rules).2 ≤ fc.getD 0

/-- The early-rule half of evaluate_and_store: on trigger and not
debounced, insert the EARLY alert, set active[early] and move the shared
last-emission clock to now; otherwise leave the state untouched. -/
def evalEarly (rules : RulesCfg) (node_id ts : String)
    (forecasts : ForecastMap) (dH_10m rain_next_hour : Option ℚ) (now : ℚ)
    (st : AlertState) : AlertState × List AlertRow :=
  let he := (early_params rules).1
  match forecasts he with
  | none => (st, [])
  | some fc =>
      if (early_params rules).2.1 ≤ fc.getD 0 ∨
          ((early_params rules).2.2.1 ≤ dH_10m.getD 0 ∧
            (early_params rules).2.2.2 ≤ rain_next_hour.getD 0) then
        if debounced now (debounce_seconds rules) st "early" then (st, [])
        else
          ({ last_ts := now,
             active := fun k => if k = "early" then true else st.active k },
            [{ alert_id := node_id ++ ":" ++ ts ++ ":early:" ++ toString he,
               node_id := node_id, ts := ts, level := "EARLY",
               horizon_h := he, reason := "rule:early" }])
      else (st, [])

/-- The high-rule half of evaluate_and_store, evaluated after the early
half on the state the early half produced. -/
def evalHigh (rules : RulesCfg) (node_id ts : String)
    (forecasts : ForecastMap) (now : ℚ) (st : AlertState) :
    AlertState × List AlertRow :=
  let hh := (high_params rules).1
  match forecasts hh with
  | none => (st, [])
  | some fc =>
      if (high_params rules).2 ≤ fc.getD 0 then
        if debounced now (debounce_seconds rules) st "high" then (st, [])
        else
          ({ last_ts := now,
             active := fun k => if k = "high" then true else st.active k },
            [{ alert_id := node_id ++ ":" ++ ts ++ ":high:" ++ toString hh,
               node_id := node_id, ts := ts, level := "HIGH",
               horizon_h := hh, reason := "rule:high" }])
      else (st, [])

/-- workers/alerting.evaluate_and_store: the early rule then the high rule
on the updated state, with now sampled once at entry; the returned list
holds the alerts inserted by this invocation, in insertion order. -/
def evaluate_and_store (rules : RulesCfg) (node_id ts : String)
    (forecasts : ForecastMap) (dH_10m rain_next_hour : Option ℚ) (now : ℚ)
    (st : AlertState) : AlertState × List AlertRow :=
  let r1 := evalEarly rules node_id ts forecasts dH_10m rain_next_hour now st
  let r2 := evalHigh rules node_id ts forecasts now r1.1
  (r2.1, r1.2 ++ r2.2)

/-- The arguments of one evaluate_and_store invocation, for stating
properties of sequences of calls. -/
structure EvalCall where
  rules : RulesCfg
  node_id : String
  ts : String
  forecasts : ForecastMap
  dH_10m : Option ℚ
  rain_next_hour : Option ℚ
  now : ℚ

/-- Run a sequence of evaluate_and_store invocations on a shared
AlertState, as the alerting worker does across scheduler ticks. -/
def run_calls (calls : List EvalCall) (st : AlertState) : AlertState :=
  calls.foldl
    (fun s c =>
      (evaluate_and_store c.rules c.node_id c.ts c.forecasts c.dH_10m
          c.rain_next_hour c.now s).1)
    st

/-! Concrete instances used by the evaluated theorems: identity stand-ins
for the transcendental kernels, the two curve-fit oracle behaviours
(scipy absent or failing, and scipy converging to a given triple), and
small data sets. -/

/-- Kernels for evaluating the fallback path: log, exp and sqrt are taken
as the identity (the fallback uses them only through the generic
structure, and the divergence exhibited below is the unconditional
application of exp to the log-space prediction); pow is unused there. -/
def idOps : NumOps := ⟨fun _ _ => 0, id, id, id⟩

/-- Kernels for evaluating the scipy branch with exponent zero: numpy
power with exponent 0 is exactly 1 for every base, so the constant-one
pow agrees with np.power on all inputs used. -/
def ops1 : NumOps := ⟨fun _ _ => 1, id, id, id⟩

/-- Oracle for a scipy that is unavailable or raises: fit_hq_params then
takes the fallback grid search. -/
def cfNone : List ℚ → List ℚ → Option (ℚ × ℚ × ℚ) := fun _ _ => none

/-- Oracle for a scipy run that converges to popt = (a=10, b=0, H0=0),
a flat curve predicting the constant 10. -/
def cf10 : List ℚ → List ℚ → Option (ℚ × ℚ × ℚ) := fun _ _ => some (10, 0, 0)

/-- Example heads, all positive and below 0.001 so only the H0 = 0 grid
candidate keeps five usable points. -/
def exH : List (Option ℚ) :=
  [some (1 / 10000), some (1 / 5000), some (3 / 10000), some (1 / 2500),
    some (1 / 2000)]

/-- Example discharges, exactly proportional to the heads so the
log-space regression under the identity kernels is a perfect fit. -/
def exQ : List (Option ℚ) := [some 1, some 2, some 3, some 4, some 5]

/-- Example heads for the scipy branch. -/
def exH2 : List (Option ℚ) := [some 1, some 2, some 3, some 4, some 5]

/-- Example discharges whose mean 6/5 is a far better predictor than the
constant 10 returned by the cf10 oracle. -/
def exQ2 : List (Option ℚ) := [some 1, some 1, some 1, some 1, some 2]

/-- The tail of the H0 grid: 0.001 through 0.100. -/
def gridTail : List ℚ :=
  (List.range 100).map (fun i : ℕ => (i : ℚ) / 1000 + 1 / 1000)

end FloodAlert

namespace FloodAlert

/-! Helper lemmas about the calibrator. -/

/-- A left fold accumulating squared residuals stays nonnegative. -/
lemma foldl_add_sq_nonneg (l : List (ℚ × ℚ)) (c : ℚ) (hc : 0 ≤ c) :
    0 ≤ l.foldl (fun s p => s + (p.1 - p.2) ^ 2) c := by
  induction l generalizing c with
  | nil => exact hc
  | cons a t ih => exact ih _ (by positivity)

/-- The total-sum-of-squares fold stays nonnegative. -/
lemma foldl_add_sq_nonneg' (l : List ℚ) (m c : ℚ) (hc : 0 ≤ c) :
    0 ≤ l.foldl (fun s t => s + (t - m) ^ 2) c := by
  induction l generalizing c with
  | nil => exact hc
  | cons a t ih => exact ih _ (by positivity)

/-- The r2 produced by _r2_rmse never exceeds 1. -/
lemma r2_rmse_r2_le_one (ops : NumOps) (yt yp : List ℚ) :
    (r2_rmse ops yt yp).1 ≤ 1 := by
  simp only [r2_rmse]
  split_ifs with h
  · have hres : 0 ≤ (yt.zip yp).foldl (fun s p => s + (p.1 - p.2) ^ 2) 0 :=
      foldl_add_sq_nonneg _ 0 le_rfl
    have hdiv : 0 ≤ ((yt.zip yp).foldl (fun s p => s + (p.1 - p.2) ^ 2) 0) /
        (yt.foldl (fun s t => s + (t - qsum yt / (yt.length : ℚ)) ^ 2) 0) :=
      div_nonneg hres (le_of_lt h)
    linarith
  · norm_num

/-- The rmse produced by _r2_rmse is sqrt applied to a nonnegative
argument, hence nonnegative whenever sqrt maps nonnegatives to
nonnegatives (as np.sqrt does). -/
lemma r2_rmse_rmse_nonneg (ops : NumOps)
    (hsq : ∀ x : ℚ, 0 ≤ x → 0 ≤ ops.sqrtf x) (yt yp : List ℚ) :
    0 ≤ (r2_rmse ops yt yp).2 := by
  simp only [r2_rmse]
  have hres : 0 ≤ (yt.zip yp).foldl (fun s p => s + (p.1 - p.2) ^ 2) 0 :=
    foldl_add_sq_nonneg _ 0 le_rfl
  exact hsq _ (by positivity)

/-- One fallback grid step preserves the range facts about the best
candidate: r2 in [0, 1] and rmse infinite or nonnegative. -/
lemma fit_step_inv (ops : NumOps)
    (hsq : ∀ x : ℚ, 0 ≤ x → 0 ≤ ops.sqrtf x)
    (Hf Qf : List ℚ) (best : FitResult) (H0 : ℚ)
    (hb : 0 ≤ best.r2 ∧ best.r2 ≤ 1 ∧
      (best.rmse = RExt.inf ∨ ∃ q, best.rmse = RExt.fin q ∧ 0 ≤ q)) :
    0 ≤ (fit_step ops Hf Qf best H0).r2 ∧
      (fit_step ops Hf Qf best H0).r2 ≤ 1 ∧
      ((fit_step ops Hf Qf best H0).rmse = RExt.inf ∨
        ∃ q, (fit_step ops Hf Qf best H0).rmse = RExt.fin q ∧ 0 ≤ q) := by
  simp only [fit_step]
  split_ifs with h1 h2 h3
  · exact hb
  · exact hb
  · exact ⟨le_trans hb.1 (le_of_lt h3), r2_rmse_r2_le_one ops _ _,
      Or.inr ⟨_, rfl, r2_rmse_rmse_nonneg ops hsq _ _⟩⟩
  · exact hb

/-- The whole fallback fold preserves the range facts. -/
lemma foldl_fit_step_inv (ops : NumOps)
    (hsq : ∀ x : ℚ, 0 ≤ x → 0 ≤ ops.sqrtf x)
    (Hf Qf : List ℚ) (l : List ℚ) (best : FitResult)
    (hb : 0 ≤ best.r2 ∧ best.r2 ≤ 1 ∧
      (best.rmse = RExt.inf ∨ ∃ q, best.rmse = RExt.fin q ∧ 0 ≤ q)) :
    0 ≤ (l.foldl (fit_step ops Hf Qf) best).r2 ∧
      (l.foldl (fit_step ops Hf Qf) best).r2 ≤ 1 ∧
      ((l.foldl (fit_step ops Hf Qf) best).rmse = RExt.inf ∨
        ∃ q, (l.foldl (fit_step ops Hf Qf) best).rmse = RExt.fin q ∧ 0 ≤ q) := by
  induction l generalizing best with
  | nil => exact hb
  | cons a t ih =>
      simp only [List.foldl_cons]
      exact ih _ (fit_step_inv ops hsq Hf Qf best a hb)

/-- A grid candidate at or above every head clamps every effective head
to zero and is skipped by the fallback loop. -/
lemma fit_step_skip (ops : NumOps) (Hf Qf : List ℚ) (best : FitResult)
    (H0 : ℚ) (hall : ∀ x ∈ Hf, x ≤ H0) : fit_step ops Hf Qf best H0 = best := by
  have hnil : ((Hf.map (fun h => max 0 (h - H0))).zip Qf).filter
      (fun p => decide (0 < p.1)) = [] := by
    rw [List.filter_eq_nil_iff]
    rintro ⟨u, v⟩ hm
    have hu : u ∈ Hf.map (fun h => max 0 (h - H0)) := (List.of_mem_zip hm).1
    rcases List.mem_map.1 hu with ⟨x, hx, rfl⟩
    have hx0 : max 0 (x - H0) = 0 := max_eq_left (sub_nonpos.2 (hall x hx))
    simp [hx0]
  simp only [fit_step, hnil]
  simp

/-- Same skip fact for the specification-following variant, whose
candidate filter is identical. -/
lemma fit_step_logspace_skip (ops : NumOps) (Hf Qf : List ℚ)
    (best : FitResult) (H0 : ℚ) (hall : ∀ x ∈ Hf, x ≤ H0) :
    fit_step_logspace ops Hf Qf best H0 = best := by
  have hnil : ((Hf.map (fun h => max 0 (h - H0))).zip Qf).filter
      (fun p => decide (0 < p.1)) = [] := by
    rw [List.filter_eq_nil_iff]
    rintro ⟨u, v⟩ hm
    have hu : u ∈ Hf.map (fun h => max 0 (h - H0)) := (List.of_mem_zip hm).1
    rcases List.mem_map.1 hu with ⟨x, hx, rfl⟩
    have hx0 : max 0 (x - H0) = 0 := max_eq_left (sub_nonpos.2 (hall x hx))
    simp [hx0]
  simp only [fit_step_logspace, hnil]
  simp

/-- Folding over grid candidates that all dominate every head leaves the
best candidate unchanged. -/
lemma foldl_fit_step_skip (ops : NumOps) (Hf Qf : List ℚ) (best : FitResult)
    (l : List ℚ) (hall : ∀ H0 ∈ l, ∀ x ∈ Hf, x ≤ H0) :
    l.foldl (fit_step ops Hf Qf) best = best := by
  induction l generalizing best with
  | nil => rfl
  | cons a t ih =>
      simp only [List.foldl_cons]
      rw [fit_step_skip ops Hf Qf best a (hall a (List.mem_cons_self a t))]
      exact ih best (fun H0 hH0 => hall H0 (List.mem_cons_of_mem a hH0))

/-- The same fold fact for the specification-following variant. -/
lemma foldl_fit_step_logspace_skip (ops : NumOps) (Hf Qf : List ℚ)
    (best : FitResult) (l : List ℚ) (hall : ∀ H0 ∈ l, ∀ x ∈ Hf, x ≤ H0) :
    l.foldl (fit_step_logspace ops Hf Qf) best = best := by
  induction l generalizing best with
  | nil => rfl
  | cons a t ih =>
      simp only [List.foldl_cons]
      rw [fit_step_logspace_skip ops Hf Qf best a (hall a (List.mem_cons_self a t))]
      exact ih best (fun H0 hH0 => hall H0 (List.mem_cons_of_mem a hH0))

/-- The grid decomposes into the candidate 0 and the hundred candidates
at or above 0.001. -/
lemma grid101_decomp : grid101 = (0 : ℚ) :: gridTail := by
  rw [grid101, show (101 : ℕ) = 100 + 1 from rfl, List.range_succ_eq_map]
  simp only [List.map_cons, List.map_map, gridTail, List.cons.injEq]
  refine ⟨by norm_num, List.map_congr_left (fun i _ => ?_)⟩
  simp only [Function.comp, Nat.succ_eq_add_one]
  push_cast
  ring

/-- Every tail candidate is at least 0.001. -/
lemma tail_ge (x : ℚ) (hx : x ∈ gridTail) : 1 / 1000 ≤ x := by
  rcases List.mem_map.1 hx with ⟨i, _, rfl⟩
  have h0 : (0 : ℚ) ≤ (i : ℚ) / 1000 := by positivity
  linarith

/-- The example heads are all at most 0.0005. -/
lemma exdata_le (x : ℚ)
    (hx : x ∈ ([1 / 10000, 1 / 5000, 3 / 10000, 1 / 2500, 1 / 2000] : List ℚ)) :
    x ≤ 1 / 2000 := by
  fin_cases hx <;> norm_num

/-- The example data masks to the five pairs unchanged. -/
lemma usable_pairs_ex : usable_pairs exH exQ =
    [(1 / 10000, 1), (1 / 5000, 2), (3 / 10000, 3), (1 / 2500, 4),
      (1 / 2000, 5)] := by
  norm_num [usable_pairs, exH, exQ, List.zip_cons_cons, List.filterMap_cons]

/-- Clamping with H0 = 0 leaves the positive example heads unchanged. -/
lemma map_clamp_ex :
    List.map (fun h => max 0 (h - (0 : ℚ)))
      [1 / 10000, 1 / 5000, 3 / 10000, 1 / 2500, 1 / 2000] =
      [1 / 10000, 1 / 5000, 3 / 10000, 1 / 2500, 1 / 2000] := by
  norm_num [max_def]

/-- All five example pairs survive the positivity filter. -/
lemma filter_pos_ex :
    (([(1 : ℚ) / 10000, 1 / 5000, 3 / 10000, 1 / 2500, 1 / 2000]).zip
        [(1 : ℚ), 2, 3, 4, 5]).filter (fun p => decide (0 < p.1)) =
      [(1 / 10000, 1), (1 / 5000, 2), (3 / 10000, 3), (1 / 2500, 4),
        (1 / 2000, 5)] := by
  norm_num [List.zip_cons_cons, List.filter_cons]

/-- At H0 = 0 the source's step compares log-space observations against
the linear-space prediction a * exp(b * X); under the identity kernels on
the exactly log-linear example data this mixed-space r2 is -9/2, so the
candidate is rejected and the sentinel is kept. -/
lemma step0_code :
    fit_step idOps [1 / 10000, 1 / 5000, 3 / 10000, 1 / 2500, 1 / 2000]
      [1, 2, 3, 4, 5] default_fit 0 = default_fit := by
  simp only [fit_step, map_clamp_ex, filter_pos_ex]
  norm_num [qsum, idOps, r2_rmse, List.zip_cons_cons, default_fit]

/-- At H0 = 0 the specification-following step compares the same
observations against the log-space prediction log a + b * X, a perfect
fit on the example data: r2 = 1, rmse = 0. -/
lemma step0_spec :
    fit_step_logspace idOps [1 / 10000, 1 / 5000, 3 / 10000, 1 / 2500, 1 / 2000]
      [1, 2, 3, 4, 5] default_fit 0 =
      { a := 0, b := 10000, H0_m := 0, r2 := 1, rmse := RExt.fin 0 } := by
  simp only [fit_step_logspace, map_clamp_ex, filter_pos_ex]
  norm_num [qsum, idOps, r2_rmse, List.zip_cons_cons, default_fit]

end FloodAlert

namespace FloodAlert

/-! Helper lemmas about the alert evaluator. -/

/-- The early half emits exactly when its trigger holds and the rule is
not debounced against the state it reads. -/
lemma evalEarly_emit_iff (rules : RulesCfg) (n t : String) (f : ForecastMap)
    (dH rn : Option ℚ) (now : ℚ) (st : AlertState) :
    (evalEarly rules n t f dH rn now st).2 ≠ [] ↔
      earlyTrigger rules f dH rn ∧
        ¬ debounced now (debounce_seconds rules) st "early" := by
  rcases hfc : f (early_params rules).1 with _ | fc
  · simp [evalEarly, hfc, earlyTrigger]
  · simp only [evalEarly, hfc, earlyTrigger]
    split_ifs with h1 h2
    · simp [h1, h2]
    · simp [h1, h2]
    · simp [h1]

/-- The high half emits exactly when its trigger holds and the rule is
not debounced against the state it reads. -/
lemma evalHigh_emit_iff (rules : RulesCfg) (n t : String) (f : ForecastMap)
    (now : ℚ) (st : AlertState) :
    (evalHigh rules n t f now st).2 ≠ [] ↔
      highTrigger rules f ∧
        ¬ debounced now (debounce_seconds rules) st "high" := by
  rcases hfc : f (high_params rules).1 with _ | fc
  · simp [evalHigh, hfc, highTrigger]
  · simp only [evalHigh, hfc, highTrigger]
    split_ifs with h1 h2
    · simp [h1, h2]
    · simp [h1, h2]
    · simp [h1]

/-- The early half either leaves the state untouched or moves the clock
to now and switches the early flag on. -/
lemma evalEarly_state_cases (rules : RulesCfg) (n t : String)
    (f : ForecastMap) (dH rn : Option ℚ) (now : ℚ) (st : AlertState) :
    (evalEarly rules n t f dH rn now st).1 = st ∨
      (evalEarly rules n t f dH rn now st).1 =
        { last_ts := now,
          active := fun k => if k = "early" then true else st.active k } := by
  rcases hfc : f (early_params rules).1 with _ | fc
  · simp [evalEarly, hfc]
  · simp only [evalEarly, hfc]
    split_ifs <;> simp

/-- The high half either leaves the state untouched or moves the clock to
now and switches the high flag on. -/
lemma evalHigh_state_cases (rules : RulesCfg) (n t : String)
    (f : ForecastMap) (now : ℚ) (st : AlertState) :
    (evalHigh rules n t f now st).1 = st ∨
      (evalHigh rules n t f now st).1 =
        { last_ts := now,
          active := fun k => if k = "high" then true else st.active k } := by
  rcases hfc : f (high_params rules).1 with _ | fc
  · simp [evalHigh, hfc]
  · simp only [evalHigh, hfc]
    split_ifs <;> simp

/-- Every alert inserted by the early half is an EARLY alert. -/
lemma evalEarly_levels (rules : RulesCfg) (n t : String) (f : ForecastMap)
    (dH rn : Option ℚ) (now : ℚ) (st : AlertState) :
    ∀ a ∈ (evalEarly rules n t f dH rn now st).2, a.level = "EARLY" := by
  rcases hfc : f (early_params rules).1 with _ | fc
  · simp [evalEarly, hfc]
  · simp only [evalEarly, hfc]
    split_ifs <;> simp

/-- The high half on a triggered, undebounced state: one HIGH alert and
the updated state. -/
lemma evalHigh_emit (rules : RulesCfg) (n t : String) (f : ForecastMap)
    (now : ℚ) (st : AlertState) (ht : highTrigger rules f)
    (hd : ¬ debounced now (debounce_seconds rules) st "high") :
    evalHigh rules n t f now st =
      ({ last_ts := now,
         active := fun k => if k = "high" then true else st.active k },
        [{ alert_id := n ++ ":" ++ t ++ ":high:" ++
              toString (high_params rules).1,
           node_id := n, ts := t, level := "HIGH",
           horizon_h := (high_params rules).1, reason := "rule:high" }]) := by
  rcases ht with ⟨fc, hfc, hcond⟩
  simp [evalHigh, hfc, hcond, hd]

/-- The high half on a debounced state changes nothing and emits
nothing. -/
lemma evalHigh_suppressed (rules : RulesCfg) (n t : String)
    (f : ForecastMap) (now : ℚ) (st : AlertState)
    (hd : debounced now (debounce_seconds rules) st "high") :
    evalHigh rules n t f now st = (st, []) := by
  rcases hfc : f (high_params rules).1 with _ | fc
  · simp [evalHigh, hfc]
  · simp only [evalHigh, hfc]
    split_ifs <;> simp_all

/-- The early half never touches the high flag. -/
lemma evalEarly_active_high (rules : RulesCfg) (n t : String)
    (f : ForecastMap) (dH rn : Option ℚ) (now : ℚ) (st : AlertState) :
    (evalEarly rules n t f dH rn now st).1.active "high" =
      st.active "high" := by
  rcases evalEarly_state_cases rules n t f dH rn now st with h | h <;>
    simp [h]

/-- After the early half the clock reads its old value or now. -/
lemma evalEarly_last_cases (rules : RulesCfg) (n t : String)
    (f : ForecastMap) (dH rn : Option ℚ) (now : ℚ) (st : AlertState) :
    (evalEarly rules n t f dH rn now st).1.last_ts = st.last_ts ∨
      (evalEarly rules n t f dH rn now st).1.last_ts = now := by
  rcases evalEarly_state_cases rules n t f dH rn now st with h | h <;>
    rw [h] <;> simp

/-- Active flags survive the early half. -/
lemma evalEarly_active_mono (rules : RulesCfg) (n t : String)
    (f : ForecastMap) (dH rn : Option ℚ) (now : ℚ) (st : AlertState)
    (name : String) (h : st.active name = true) :
    (evalEarly rules n t f dH rn now st).1.active name = true := by
  rcases evalEarly_state_cases rules n t f dH rn now st with hc | hc <;>
    rw [hc] <;> simp [h]

/-- Active flags survive the high half. -/
lemma evalHigh_active_mono (rules : RulesCfg) (n t : String)
    (f : ForecastMap) (now : ℚ) (st : AlertState)
    (name : String) (h : st.active name = true) :
    (evalHigh rules n t f now st).1.active name = true := by
  rcases evalHigh_state_cases rules n t f now st with hc | hc <;>
    rw [hc] <;> simp [h]

/-! Helper lemmas about the historical lookup. -/

/-- The maximum scan started from a row never comes back empty. -/
lemma foldl_latest_ne_none (l : List TeleRow) (m : TeleRow) :
    l.foldl latest_step (some m) ≠ none := by
  induction l generalizing m with
  | nil => simp
  | cons a t ih =>
      simp only [List.foldl_cons, latest_step]
      split_ifs <;> exact ih _

/-- The scan's result is the accumulator or a member of the list. -/
lemma foldl_latest_mem (l : List TeleRow) (acc : Option TeleRow) (r : TeleRow)
    (h : l.foldl latest_step acc = some r) : acc = some r ∨ r ∈ l := by
  induction l generalizing acc with
  | nil => exact Or.inl h
  | cons a t ih =>
      simp only [List.foldl_cons] at h
      rcases ih _ h with hacc | hmem
      · rcases acc with _ | m
        · simp only [latest_step] at hacc
          right
          rw [Option.some.injEq] at hacc
          rw [← hacc]
          exact List.mem_cons_self a t
        · simp only [latest_step] at hacc
          split_ifs at hacc with hts
          · right
            rw [Option.some.injEq] at hacc
            rw [← hacc]
            exact List.mem_cons_self a t
          · exact Or.inl hacc
      · exact Or.inr (List.mem_cons_of_mem a hmem)

/-- The scan's result dominates the starting accumulator. -/
lemma foldl_latest_acc_le (l : List TeleRow) (m r : TeleRow)
    (h : l.foldl latest_step (some m) = some r) : m.ts ≤ r.ts := by
  induction l generalizing m with
  | nil =>
      rw [List.foldl_nil, Option.some.injEq] at h
      rw [h]
  | cons a t ih =>
      simp only [List.foldl_cons, latest_step] at h
      split_ifs at h with hts
      · exact le_trans (le_of_lt hts) (ih _ h)
      · exact ih _ h

/-- The scan's result dominates every list member. -/
lemma foldl_latest_max (l : List TeleRow) (acc : Option TeleRow) (r : TeleRow)
    (h : l.foldl latest_step acc = some r) : ∀ x ∈ l, x.ts ≤ r.ts := by
  induction l generalizing acc with
  | nil => intro x hx; cases hx
  | cons a t ih =>
      intro x hx
      simp only [List.foldl_cons] at h
      rcases List.mem_cons.1 hx with rfl | hxt
      · have hstep : latest_step acc x = some x ∨
            (∃ m, acc = some m ∧ latest_step acc x = some m ∧ x.ts ≤ m.ts) := by
          rcases acc with _ | m
          · exact Or.inl rfl
          · simp only [latest_step]
            split_ifs with hts
            · exact Or.inl rfl
            · exact Or.inr ⟨m, rfl, rfl, le_of_not_lt hts⟩
        rcases hstep with h1 | ⟨m, _, h1, hle⟩
        · rw [h1] at h
          exact foldl_latest_acc_le t x r h
        · rw [h1] at h
          exact le_trans hle (foldl_latest_acc_le t m r h)
      · exact ih _ h x hxt

/-- An empty scan result means an empty candidate list. -/
lemma latest_row_none (l : List TeleRow) (h : latest_row l = none) :
    l = [] := by
  rcases l with _ | ⟨a, t⟩
  · rfl
  · exfalso
    rw [latest_row, List.foldl_cons] at h
    have hstep : latest_step none a = some a := rfl
    rw [hstep] at h
    exact foldl_latest_ne_none t a h

/-- A returned latest row is a member of the candidate list. -/
lemma latest_row_mem (l : List TeleRow) (r : TeleRow)
    (h : latest_row l = some r) : r ∈ l := by
  rcases foldl_latest_mem l none r h with h0 | hm
  · cases h0
  · exact hm

end FloodAlert

namespace FloodAlert

/-! Helper lemmas about the QC rules. -/

/-- The dist segment only ever contains its own flag. -/
lemma flag_dist_sub (d : Option ℚ) :
    ∀ s ∈ flag_dist d, s = "OUT_OF_RANGE_DIST" := by
  rcases d with _ | x
  · simp [flag_dist]
  · simp only [flag_dist]
    split_ifs <;> simp

/-- The negative-head segment only ever contains its own flag. -/
lemma flag_negh_sub (h : Option ℚ) : ∀ s ∈ flag_negh h, s = "NEG_H" := by
  rcases h with _ | x
  · simp [flag_negh]
  · simp only [flag_negh]
    split_ifs <;> simp

/-- The spike segment only ever contains its own flag. -/
lemma flag_spike_sub (dh : Option ℚ) :
    ∀ s ∈ flag_spike dh, s = "SPIKES_H" := by
  rcases dh with _ | x
  · simp [flag_spike]
  · simp only [flag_spike]
    split_ifs <;> simp

/-- The discharge segment only ever contains its own flag. -/
lemma flag_qrange_sub (q : Option ℚ) (qm : ℚ) :
    ∀ s ∈ flag_qrange q qm, s = "OUT_OF_RANGE_Q" := by
  rcases q with _ | x
  · simp [flag_qrange]
  · simp only [flag_qrange]
    split_ifs <;> simp

/-- The dist flag fires exactly on a present out-of-range distance. -/
lemma mem_flag_dist (d : Option ℚ) :
    "OUT_OF_RANGE_DIST" ∈ flag_dist d ↔
      ∃ x, d = some x ∧ (x < 1 / 20 ∨ 5 < x) := by
  rcases d with _ | x
  · simp [flag_dist]
  · simp only [flag_dist]
    split_ifs with hc
    · simp only [List.not_mem_nil, false_iff, not_exists, not_and]
      rintro y hy
      rw [Option.some.injEq] at hy
      subst hy
      rw [not_or, not_lt, not_lt]
      exact hc
    · rw [not_and_or, not_le, not_le] at hc
      simp only [List.mem_singleton, true_iff]
      exact ⟨x, rfl, hc⟩

/-- The negative-head flag fires exactly on a present head below
-0.02. -/
lemma mem_flag_negh (h : Option ℚ) :
    "NEG_H" ∈ flag_negh h ↔ ∃ x, h = some x ∧ x < -(1 / 50) := by
  rcases h with _ | x
  · simp [flag_negh]
  · simp only [flag_negh]
    split_ifs with hc
    · simp only [List.mem_singleton, true_iff]
      exact ⟨x, rfl, hc⟩
    · simp only [List.not_mem_nil, false_iff, not_exists, not_and]
      rintro y hy
      rw [Option.some.injEq] at hy
      subst hy
      exact hc

/-- The spike flag fires exactly on a present absolute delta of at least
0.15. -/
lemma mem_flag_spike (dh : Option ℚ) :
    "SPIKES_H" ∈ flag_spike dh ↔ ∃ x, dh = some x ∧ 3 / 20 ≤ |x| := by
  rcases dh with _ | x
  · simp [flag_spike]
  · simp only [flag_spike]
    split_ifs with hc
    · simp only [List.mem_singleton, true_iff]
      exact ⟨x, rfl, hc⟩
    · simp only [List.not_mem_nil, false_iff, not_exists, not_and]
      rintro y hy
      rw [Option.some.injEq] at hy
      subst hy
      exact hc

/-- The discharge flag fires exactly on a present discharge that is
negative or above q_max. -/
lemma mem_flag_qrange (q : Option ℚ) (qm : ℚ) :
    "OUT_OF_RANGE_Q" ∈ flag_qrange q qm ↔
      ∃ x, q = some x ∧ (x < 0 ∨ qm < x) := by
  rcases q with _ | x
  · simp [flag_qrange]
  · simp only [flag_qrange]
    split_ifs with hc
    · simp only [List.mem_singleton, true_iff]
      exact ⟨x, rfl, hc⟩
    · simp only [List.not_mem_nil, false_iff, not_exists, not_and]
      rintro y hy
      rw [Option.some.injEq] at hy
      subst hy
      exact hc

end FloodAlert

namespace FloodAlert

/-! The claim theorems. -/

/-- Claim C1: compute_h_q returns exactly 0.0 whenever H_eff <= 0 and
a * H_eff ** b whenever H_eff > 0; for every finite rational input it
returns a value (the None sentinel arises only from a missing or
non-finite H_eff, modelled as the none input) and never raises. -/
theorem C1_discharge_gate (ops : NumOps) (a b : ℚ) :
    compute_h_q ops none a b = none ∧
    ∀ he : ℚ,
      (he ≤ 0 → compute_h_q ops (some he) a b = some 0) ∧
      (0 < he → compute_h_q ops (some he) a b = some (a * ops.powf he b)) := by
  refine ⟨rfl, fun he => ⟨fun h => ?_, fun h => ?_⟩⟩
  · simp [compute_h_q, h]
  · simp [compute_h_q, not_le.2 h]

/-- Witness for C1 at H_eff = -1 and H_eff = 2 with pow x y = x * y. -/
theorem C1_discharge_gate_witness :
    compute_h_q ⟨fun x y => x * y, id, id, id⟩ (some (-1)) 2 3 = some 0 ∧
    compute_h_q ⟨fun x y => x * y, id, id, id⟩ (some 2) 5 3 = some (5 * (2 * 3)) :=
  ⟨((C1_discharge_gate ⟨fun x y => x * y, id, id, id⟩ 2 3).2 (-1)).1
      (by norm_num),
   ((C1_discharge_gate ⟨fun x y => x * y, id, id, id⟩ 5 3).2 2).2
      (by norm_num)⟩

/-- Claim C2: when fewer than 5 pairs survive the finiteness-and-Q>0
mask, fit_hq_params returns exactly the sentinel
FitResult(a=1, b=1.5, H0_m=0, r2=0, rmse=+inf), for every kernel and
curve-fit oracle, without raising. -/
theorem C2_insufficient_sentinel (ops : NumOps)
    (cf : List ℚ → List ℚ → Option (ℚ × ℚ × ℚ)) (H Q : List (Option ℚ))
    (h : (usable_pairs H Q).length < 5) :
    fit_hq_params ops cf H Q =
      { a := 1, b := 3 / 2, H0_m := 0, r2 := 0, rmse := RExt.inf } := by
  simp only [fit_hq_params, if_pos h]
  rfl

/-- Witness for C2: three samples, one non-finite head and one
non-finite discharge, leaving one usable pair. -/
theorem C2_insufficient_sentinel_witness :
    fit_hq_params ⟨fun _ _ => 0, id, id, id⟩ (fun _ _ => none)
      [some 1, none, some 2] [some 3, some 4, none] =
      { a := 1, b := 3 / 2, H0_m := 0, r2 := 0, rmse := RExt.inf } :=
  C2_insufficient_sentinel _ _ _ _
    (by norm_num [usable_pairs, List.zip_cons_cons, List.filterMap_cons])

/-- Claim C3 (code bug): on heads 1e-4, 2e-4, 3e-4, 4e-4, 5e-4 and
discharges 1..5, with scipy unavailable and the transcendental kernels
taken as identities, the source's fallback — which hands _r2_rmse the
log-space observations together with the linear-space prediction
a * exp(b * X) — scores the (perfectly log-linear) H0 = 0 candidate
r2 = -9/2, rejects it and returns the sentinel with rmse = +inf, while
the specification's log-space computation accepts it with r2 = 1 and
rmse = 0.  Every other part of the claim (grid 0..0.1 step 0.001, the
max(0, H - H0) clamp, the at-least-5-points requirement, OLS slope and
intercept, strict-improvement keeps, sentinel when no candidate
qualifies) is retained by both definitions. -/
theorem C3_mixed_space_metric :
    fit_hq_params idOps cfNone exH exQ =
      { a := 1, b := 3 / 2, H0_m := 0, r2 := 0, rmse := RExt.inf } ∧
    fit_hq_params_logspace idOps cfNone exH exQ =
      { a := 0, b := 10000, H0_m := 0, r2 := 1, rmse := RExt.fin 0 } ∧
    (fit_hq_params idOps cfNone exH exQ).rmse ≠
      (fit_hq_params_logspace idOps cfNone exH exQ).rmse := by
  have hdata : ∀ H0 ∈ gridTail,
      ∀ x ∈ ([1 / 10000, 1 / 5000, 3 / 10000, 1 / 2500, 1 / 2000] : List ℚ),
      x ≤ H0 := fun H0 hH0 x hx =>
    le_trans (exdata_le x hx) (le_trans (by norm_num) (tail_ge H0 hH0))
  have hcode : fit_hq_params idOps cfNone exH exQ = default_fit := by
    simp only [fit_hq_params, usable_pairs_ex]
    norm_num [cfNone]
    rw [grid101_decomp]
    simp only [List.foldl_cons]
    rw [step0_code]
    exact foldl_fit_step_skip idOps _ _ default_fit _ hdata
  have hspec : fit_hq_params_logspace idOps cfNone exH exQ =
      { a := 0, b := 10000, H0_m := 0, r2 := 1, rmse := RExt.fin 0 } := by
    simp only [fit_hq_params_logspace, usable_pairs_ex]
    norm_num [cfNone]
    rw [grid101_decomp]
    simp only [List.foldl_cons]
    rw [step0_spec]
    exact foldl_fit_step_logspace_skip idOps _ _ _ _ hdata
  refine ⟨hcode, hspec, ?_⟩
  rw [hcode, hspec]
  intro hcontra
  exact RExt.noConfusion hcontra

end FloodAlert

namespace FloodAlert

/-- Claim C4: value_10m_ago returns exactly the most recent row of the
node with timestamp at or before ts - 10 minutes (none when no such row
exists), and process_payload forms dH_10m = H_m_now - H_m_then exactly
when both sides are present — likewise dQ_10m from Q_m3s — and leaves a
delta absent (never zero) when the lookup is empty or either side is
absent. -/
theorem C4_delta_semantics (ops : NumOps) (table : List TeleRow)
    (hq : HQProfile) (node : String) (ts : ℤ) (dist : Option ℚ)
    (rain : Option ℤ) (batt : Option ℚ) (metaSh : Option ℚ) :
    (∀ v, value_10m_ago table node ts = some v →
      ∃ r ∈ table, r.node_id = node ∧ r.ts ≤ ts - 600 ∧
        v = (r.H_m, r.Q_m3s) ∧
        ∀ r' ∈ table, r'.node_id = node → r'.ts ≤ ts - 600 → r'.ts ≤ r.ts) ∧
    (value_10m_ago table node ts = none →
      ∀ r ∈ table, r.node_id = node → ¬ r.ts ≤ ts - 600) ∧
    (∀ ph pq hnow, value_10m_ago table node ts = some (some ph, pq) →
      (process_payload ops table hq node ts dist rain batt metaSh).H_m =
        some hnow →
      (process_payload ops table hq node ts dist rain batt metaSh).dH_10m =
        some (hnow - ph)) ∧
    (∀ ph pq qnow, value_10m_ago table node ts = some (ph, some pq) →
      (process_payload ops table hq node ts dist rain batt metaSh).Q_m3s =
        some qnow →
      (process_payload ops table hq node ts dist rain batt metaSh).dQ_10m =
        some (qnow - pq)) ∧
    (value_10m_ago table node ts = none →
      (process_payload ops table hq node ts dist rain batt metaSh).dH_10m =
        none ∧
      (process_payload ops table hq node ts dist rain batt metaSh).dQ_10m =
        none) ∧
    ((process_payload ops table hq node ts dist rain batt metaSh).H_m = none →
      (process_payload ops table hq node ts dist rain batt metaSh).dH_10m =
        none) ∧
    ((process_payload ops table hq node ts dist rain batt metaSh).Q_m3s = none →
      (process_payload ops table hq node ts dist rain batt metaSh).dQ_10m =
        none) ∧
    (∀ pq, value_10m_ago table node ts = some (none, pq) →
      (process_payload ops table hq node ts dist rain batt metaSh).dH_10m =
        none) ∧
    (∀ ph, value_10m_ago table node ts = some (ph, none) →
      (process_payload ops table hq node ts dist rain batt metaSh).dQ_10m =
        none) := by
  refine ⟨?_, ?_, ?_, ?_, ?_, ?_, ?_, ?_, ?_⟩
  · intro v hv
    rw [value_10m_ago] at hv
    rcases hlr : latest_row (table.filter
        (fun r => decide (r.node_id = node ∧ r.ts ≤ ts - 600))) with _ | r
    · rw [hlr] at hv; cases hv
    · rw [hlr, Option.some.injEq] at hv
      have hmem := latest_row_mem _ _ hlr
      rw [List.mem_filter, decide_eq_true_eq] at hmem
      refine ⟨r, hmem.1, hmem.2.1, hmem.2.2, hv.symm, ?_⟩
      intro r' hr' hn' ht'
      have hr'f : r' ∈ table.filter
          (fun r => decide (r.node_id = node ∧ r.ts ≤ ts - 600)) := by
        rw [List.mem_filter, decide_eq_true_eq]
        exact ⟨hr', hn', ht'⟩
      exact foldl_latest_max _ _ _ hlr r' hr'f
  · intro hv r hr hn
    rw [value_10m_ago] at hv
    rcases hlr : latest_row (table.filter
        (fun r => decide (r.node_id = node ∧ r.ts ≤ ts - 600))) with _ | r0
    · have hnil := latest_row_none _ hlr
      rw [List.filter_eq_nil_iff] at hnil
      intro hts
      exact absurd (decide_eq_true_iff.2 ⟨hn, hts⟩) (hnil r hr)
    · rw [hlr] at hv; cases hv
  · intro ph pq hnow hv hH
    rcases dist with _ | d
    · simp only [process_payload, Option.map_none'] at hH; cases hH
    · simp only [process_payload, Option.map_some', Option.some.injEq] at hH ⊢
      rw [hv]
      rw [hH]
  · intro ph pq qnow hv hQ
    rcases dist with _ | d
    · simp only [process_payload, Option.map_none', compute_h_q] at hQ
      cases hQ
    · simp only [process_payload, Option.map_some', compute_h_q] at hQ ⊢
      by_cases hle :
          max 0 (metaSh.getD hq.sensor_height_above_crest_m - d - hq.H0_m) ≤ 0
      · rw [if_pos hle] at hQ ⊢
        rw [Option.some.injEq] at hQ
        rw [hv, hQ]
      · rw [if_neg hle] at hQ ⊢
        rw [Option.some.injEq] at hQ
        rw [hv, hQ]
  · intro hv
    constructor <;> simp only [process_payload] <;> rw [hv]
  · intro hH
    rcases dist with _ | d
    · simp only [process_payload]
      rcases value_10m_ago table node ts with _ | ⟨_ | ph, pq⟩ <;> simp
    · simp only [process_payload, Option.map_some'] at hH; cases hH
  · intro hQ
    rcases dist with _ | d
    · simp only [process_payload]
      rcases value_10m_ago table node ts with _ | ⟨ph, _ | pq⟩ <;>
        simp [compute_h_q]
    · simp only [process_payload, Option.map_some', compute_h_q] at hQ
      split_ifs at hQ
  · intro pq hv
    simp only [process_payload]
    rw [hv]
  · intro ph hv
    simp only [process_payload]
    rw [hv]

/-- Witness for C4: one historical row with H_m = 1 ten minutes (600
seconds) before ts = 700, current head 3/2, so dH_10m = 3/2 - 1. -/
theorem C4_delta_semantics_witness :
    (process_payload ⟨fun _ _ => 0, id, id, id⟩
        [{ node_id := "n", ts := 100, H_m := some 1, Q_m3s := some 2 }]
        ⟨1, 3 / 2, 0, 1⟩ "n" 700 (some (1 / 2)) none none
        (some 2)).dH_10m = some (3 / 2 - 1) := by
  have hv : value_10m_ago
      [({ node_id := "n", ts := 100, H_m := some 1, Q_m3s := some 2 } :
        TeleRow)] "n" 700 = some (some 1, some 2) := by
    rw [value_10m_ago]
    norm_num [latest_row, latest_step, List.filter]
  have hH : (process_payload ⟨fun _ _ => 0, id, id, id⟩
      [{ node_id := "n", ts := 100, H_m := some 1, Q_m3s := some 2 }]
      ⟨1, 3 / 2, 0, 1⟩ "n" 700 (some (1 / 2)) none none
      (some 2)).H_m = some (3 / 2) := by
    simp only [process_payload, Option.map_some', Option.getD_some]
    norm_num
  exact (C4_delta_semantics ⟨fun _ _ => 0, id, id, id⟩
      [{ node_id := "n", ts := 100, H_m := some 1, Q_m3s := some 2 }]
      ⟨1, 3 / 2, 0, 1⟩ "n" 700 (some (1 / 2)) none none
      (some 2)).2.2.1 1 (some 2) (3 / 2) hv hH

/-- Claim C7: process_payload resolves the sensor height from meta when
present, else from the profile; with dist_m present it sets
H_m = sensor_height - dist, H_eff = max(0, H_m - H0) and
Q_m3s = discharge(H_eff, a, b); with dist_m absent all three fields are
absent, not zero. -/
theorem C7_sample_processor (ops : NumOps) (table : List TeleRow)
    (hq : HQProfile) (node : String) (ts : ℤ) (dist : Option ℚ)
    (rain : Option ℤ) (batt : Option ℚ) (metaSh : Option ℚ) :
    ((process_payload ops table hq node ts dist rain batt metaSh).Q_m3s =
      compute_h_q ops
        (process_payload ops table hq node ts dist rain batt metaSh).H_eff
        hq.a hq.b) ∧
    (∀ d, dist = some d →
      (process_payload ops table hq node ts dist rain batt metaSh).H_m =
        some (metaSh.getD hq.sensor_height_above_crest_m - d) ∧
      (process_payload ops table hq node ts dist rain batt metaSh).H_eff =
        some (max 0 (metaSh.getD hq.sensor_height_above_crest_m - d -
          hq.H0_m))) ∧
    (dist = none →
      (process_payload ops table hq node ts dist rain batt metaSh).H_m =
        none ∧
      (process_payload ops table hq node ts dist rain batt metaSh).H_eff =
        none ∧
      (process_payload ops table hq node ts dist rain batt metaSh).Q_m3s =
        none) ∧
    (∀ m, metaSh = some m →
      (process_payload ops table hq node ts dist rain batt metaSh).H_m =
        dist.map (fun d => m - d)) := by
  refine ⟨rfl, ?_, ?_, ?_⟩
  · rintro d rfl
    exact ⟨rfl, rfl⟩
  · rintro rfl
    exact ⟨rfl, rfl, rfl⟩
  · rintro m rfl
    rfl

/-- Witness for C7 with dist_m absent: H_m, H_eff and Q_m3s all come out
absent. -/
theorem C7_sample_processor_witness :
    (process_payload ⟨fun _ _ => 0, id, id, id⟩ [] ⟨1, 3 / 2, 0, 1⟩ "n" 0
      none none none none).H_m = none ∧
    (process_payload ⟨fun _ _ => 0, id, id, id⟩ [] ⟨1, 3 / 2, 0, 1⟩ "n" 0
      none none none none).H_eff = none ∧
    (process_payload ⟨fun _ _ => 0, id, id, id⟩ [] ⟨1, 3 / 2, 0, 1⟩ "n" 0
      none none none none).Q_m3s = none :=
  (C7_sample_processor ⟨fun _ _ => 0, id, id, id⟩ [] ⟨1, 3 / 2, 0, 1⟩ "n" 0
    none none none none).2.2.1 rfl

end FloodAlert

namespace FloodAlert

/-- Claim C5: for each rule name an alert is emitted exactly when its
trigger holds and not ((now - last_emission) < debounce_min * 60 and
active[name]), each half reading the state it is handed (the high half
runs on the state the early half left); and from a fresh state, two
consecutive calls within the debounce window that both satisfy the high
trigger emit exactly one HIGH alert. -/
theorem C5_debounce (rules : RulesCfg) (n t1 t2 : String)
    (f1 f2 : ForecastMap) (dH1 rn1 dH2 rn2 : Option ℚ) (now1 now2 : ℚ)
    (a0 : ℚ) (hw : 0 < debounce_seconds rules)
    (ht1 : highTrigger rules f1) (ht2 : highTrigger rules f2)
    (hclose : now2 - now1 < ((debounce_seconds rules : ℤ) : ℚ)) :
    (∀ (n' t' : String) (f' : ForecastMap) (dH' rn' : Option ℚ) (now' : ℚ)
        (st : AlertState),
      ((evalEarly rules n' t' f' dH' rn' now' st).2 ≠ [] ↔
        earlyTrigger rules f' dH' rn' ∧
          ¬ debounced now' (debounce_seconds rules) st "early") ∧
      ((evalHigh rules n' t' f' now' st).2 ≠ [] ↔
        highTrigger rules f' ∧
          ¬ debounced now' (debounce_seconds rules) st "high")) ∧
    (((evaluate_and_store rules n t1 f1 dH1 rn1 now1
          ⟨a0, fun _ => false⟩).2 ++
        (evaluate_and_store rules n t2 f2 dH2 rn2 now2
          (evaluate_and_store rules n t1 f1 dH1 rn1 now1
            ⟨a0, fun _ => false⟩).1).2).filter
        (fun a => a.level = "HIGH")).length = 1 := by
  refine ⟨fun n' t' f' dH' rn' now' st =>
    ⟨evalEarly_emit_iff rules n' t' f' dH' rn' now' st,
     evalHigh_emit_iff rules n' t' f' now' st⟩, ?_⟩
  set st0 : AlertState := ⟨a0, fun _ => false⟩ with hst0
  have hactE : (evalEarly rules n t1 f1 dH1 rn1 now1 st0).1.active "high" =
      false := by
    rw [evalEarly_active_high]
  have hnd1 : ¬ debounced now1 (debounce_seconds rules)
      (evalEarly rules n t1 f1 dH1 rn1 now1 st0).1 "high" := by
    intro hdb
    rw [debounced] at hdb
    rw [hactE] at hdb
    exact absurd hdb.2 (by simp)
  have hhigh1 := evalHigh_emit rules n t1 f1 now1
    (evalEarly rules n t1 f1 dH1 rn1 now1 st0).1 ht1 hnd1
  have halerts1 : (evaluate_and_store rules n t1 f1 dH1 rn1 now1 st0).2 =
      (evalEarly rules n t1 f1 dH1 rn1 now1 st0).2 ++
        [{ alert_id := n ++ ":" ++ t1 ++ ":high:" ++
              toString (high_params rules).1,
           node_id := n, ts := t1, level := "HIGH",
           horizon_h := (high_params rules).1, reason := "rule:high" }] := by
    simp only [evaluate_and_store, hhigh1]
  have hst1 : (evaluate_and_store rules n t1 f1 dH1 rn1 now1 st0).1 =
      { last_ts := now1,
        active := fun k => if k = "high" then true else
          (evalEarly rules n t1 f1 dH1 rn1 now1 st0).1.active k } := by
    simp only [evaluate_and_store, hhigh1]
  set st1 := (evaluate_and_store rules n t1 f1 dH1 rn1 now1 st0).1 with hst1def
  have hact1 : st1.active "high" = true := by rw [hst1]; simp
  have hlast1 : st1.last_ts = now1 := by rw [hst1]
  have hactE2 : (evalEarly rules n t2 f2 dH2 rn2 now2 st1).1.active "high" =
      true := by
    rw [evalEarly_active_high, hact1]
  have hdb2 : debounced now2 (debounce_seconds rules)
      (evalEarly rules n t2 f2 dH2 rn2 now2 st1).1 "high" := by
    refine ⟨?_, hactE2⟩
    rcases evalEarly_last_cases rules n t2 f2 dH2 rn2 now2 st1 with h | h
    · rw [h, hlast1]; exact hclose
    · rw [h]
      simp only [sub_self]
      exact_mod_cast hw
  have hhigh2 := evalHigh_suppressed rules n t2 f2 now2
    (evalEarly rules n t2 f2 dH2 rn2 now2 st1).1 hdb2
  have halerts2 : (evaluate_and_store rules n t2 f2 dH2 rn2 now2 st1).2 =
      (evalEarly rules n t2 f2 dH2 rn2 now2 st1).2 := by
    simp only [evaluate_and_store, hhigh2, List.append_nil]
  rw [halerts1, halerts2, List.filter_append, List.filter_append]
  have hfE1 : ((evalEarly rules n t1 f1 dH1 rn1 now1 st0).2).filter
      (fun a => a.level = "HIGH") = [] := by
    rw [List.filter_eq_nil_iff]
    intro a ha
    have hlev := evalEarly_levels rules n t1 f1 dH1 rn1 now1 st0 a ha
    simp [hlev]
  have hfE2 : ((evalEarly rules n t2 f2 dH2 rn2 now2 st1).2).filter
      (fun a => a.level = "HIGH") = [] := by
    rw [List.filter_eq_nil_iff]
    intro a ha
    have hlev := evalEarly_levels rules n t2 f2 dH2 rn2 now2 st1 a ha
    simp [hlev]
  rw [hfE1, hfE2]
  simp

/-- Witness for C5: default rules (debounce 30 min), a forecast with
probability 1 at horizon 12 on both calls, calls one minute apart. -/
theorem C5_debounce_witness :
    (((evaluate_and_store ⟨none, none, none⟩ "n" "t1"
          (fun h => if h = 12 then some (some 1) else none) none none 0
          ⟨0, fun _ => false⟩).2 ++
        (evaluate_and_store ⟨none, none, none⟩ "n" "t2"
          (fun h => if h = 12 then some (some 1) else none) none none 60
          (evaluate_and_store ⟨none, none, none⟩ "n" "t1"
            (fun h => if h = 12 then some (some 1) else none) none none 0
            ⟨0, fun _ => false⟩).1).2).filter
        (fun a => a.level = "HIGH")).length = 1 := by
  have htr : highTrigger ⟨none, none, none⟩
      (fun h => if h = 12 then some (some 1) else none) := by
    refine ⟨some 1, ?_, by norm_num [high_params]⟩
    norm_num [high_params]
  exact (C5_debounce ⟨none, none, none⟩ "n" "t1" "t2"
    (fun h => if h = 12 then some (some 1) else none)
    (fun h => if h = 12 then some (some 1) else none)
    none none none none 0 60 0 (by norm_num [debounce_seconds])
    htr htr (by norm_num [debounce_seconds])).2

/-- Claim C6: the four QC rules fire independently and exactly on their
documented present-and-out-of-bounds conditions, absent values never
flag, every subset of the four flags is realisable, and the concrete
sample (dist 0.5, H 0.1, dH 0.2, Q 1500, q_max 1000) yields exactly
SPIKES_H and OUT_OF_RANGE_Q, joined as "SPIKES_H|OUT_OF_RANGE_Q". -/
theorem C6_qc_rules :
    (∀ (d h dh q : Option ℚ) (qm : ℚ),
      ("OUT_OF_RANGE_DIST" ∈ qc_flag_list d h dh q qm ↔
        ∃ x, d = some x ∧ (x < 1 / 20 ∨ 5 < x)) ∧
      ("NEG_H" ∈ qc_flag_list d h dh q qm ↔
        ∃ x, h = some x ∧ x < -(1 / 50)) ∧
      ("SPIKES_H" ∈ qc_flag_list d h dh q qm ↔
        ∃ x, dh = some x ∧ 3 / 20 ≤ |x|) ∧
      ("OUT_OF_RANGE_Q" ∈ qc_flag_list d h dh q qm ↔
        ∃ x, q = some x ∧ (x < 0 ∨ qm < x))) ∧
    qc_flag_list none none none none 1000 = [] ∧
    (∀ b1 b2 b3 b4 : Bool,
      qc_flag_list (if b1 then some 10 else none)
        (if b2 then some (-1) else none) (if b3 then some 1 else none)
        (if b4 then some (-1) else none) 1000 =
      (if b1 then ["OUT_OF_RANGE_DIST"] else []) ++
        (if b2 then ["NEG_H"] else []) ++ (if b3 then ["SPIKES_H"] else []) ++
        (if b4 then ["OUT_OF_RANGE_Q"] else [])) ∧
    qc_flag_list (some (1 / 2)) (some (1 / 10)) (some (1 / 5)) (some 1500)
      1000 = ["SPIKES_H", "OUT_OF_RANGE_Q"] ∧
    qc_flags (some (1 / 2)) (some (1 / 10)) (some (1 / 5)) (some 1500)
      1000 = "SPIKES_H|OUT_OF_RANGE_Q" := by
  refine ⟨?_, by rfl, ?_, ?_, ?_⟩
  · intro d h dh q qm
    refine ⟨?_, ?_, ?_, ?_⟩ <;> simp only [qc_flag_list, List.mem_append]
    · rw [mem_flag_dist]
      constructor
      · rintro (((hm | hm) | hm) | hm)
        · exact hm
        · exact absurd (flag_negh_sub h _ hm) (by decide)
        · exact absurd (flag_spike_sub dh _ hm) (by decide)
        · exact absurd (flag_qrange_sub q qm _ hm) (by decide)
      · intro hx
        exact Or.inl (Or.inl (Or.inl hx))
    · rw [mem_flag_negh]
      constructor
      · rintro (((hm | hm) | hm) | hm)
        · exact absurd (flag_dist_sub d _ hm) (by decide)
        · exact hm
        · exact absurd (flag_spike_sub dh _ hm) (by decide)
        · exact absurd (flag_qrange_sub q qm _ hm) (by decide)
      · intro hx
        exact Or.inl (Or.inl (Or.inr hx))
    · rw [mem_flag_spike]
      constructor
      · rintro (((hm | hm) | hm) | hm)
        · exact absurd (flag_dist_sub d _ hm) (by decide)
        · exact absurd (flag_negh_sub h _ hm) (by decide)
        · exact hm
        · exact absurd (flag_qrange_sub q qm _ hm) (by decide)
      · intro hx
        exact Or.inl (Or.inr hx)
    · rw [mem_flag_qrange]
      constructor
      · rintro (((hm | hm) | hm) | hm)
        · exact absurd (flag_dist_sub d _ hm) (by decide)
        · exact absurd (flag_negh_sub h _ hm) (by decide)
        · exact absurd (flag_spike_sub dh _ hm) (by decide)
        · exact hm
      · intro hx
        exact Or.inr hx
  · intro b1 b2 b3 b4
    cases b1 <;> cases b2 <;> cases b3 <;> cases b4 <;>
      norm_num [qc_flag_list, flag_dist, flag_negh, flag_spike, flag_qrange]
  · rw [qc_flag_list, flag_dist, flag_negh, flag_spike, flag_qrange]
    rw [show |(1 : ℚ) / 5| = 1 / 5 from abs_of_nonneg (by norm_num)]
    norm_num
  · rw [qc_flags, qc_flag_list, flag_dist, flag_negh, flag_spike, flag_qrange]
    rw [show |(1 : ℚ) / 5| = 1 / 5 from abs_of_nonneg (by norm_num)]
    norm_num
    rfl

/-- Claim C8: the early rule emits exactly when the forecast entry at the
configured horizon is present and truthy and either prob_flood is at
least prob_min or both the dH_10m and rain_next_hour comparisons pass
with absent values read as 0.0 (and the rule is not debounced); on an
absent early config section the parameters are the defaults
(6, 0.6, 0.08, 10.0). -/
theorem C8_early_trigger :
    (∀ (rules : RulesCfg) (n t : String) (f : ForecastMap)
        (dH rn : Option ℚ) (now : ℚ) (st : AlertState),
      (evalEarly rules n t f dH rn now st).2 ≠ [] ↔
        (∃ fc, f (early_params rules).1 = some fc ∧
          ((early_params rules).2.1 ≤ fc.getD 0 ∨
            ((early_params rules).2.2.1 ≤ dH.getD 0 ∧
              (early_params rules).2.2.2 ≤ rn.getD 0))) ∧
          ¬ debounced now (debounce_seconds rules) st "early") ∧
    (∀ (dm : Option ℤ) (hc : Option HighCfg),
      early_params ⟨dm, none, hc⟩ = (6, 3 / 5, 2 / 25, 10)) := by
  constructor
  · intro rules n t f dH rn now st
    exact evalEarly_emit_iff rules n t f dH rn now st
  · intro dm hc
    rfl

end FloodAlert

namespace FloodAlert

/-- Claim C9 counterexample: a calibration run whose curve-fit oracle
converges to popt = (10, 0, 0) on data with mean 6/5 produces a
FitResult with r2 = -484 < 0 — fit_hq_params applies no clamp to the
1 - SS_res/SS_tot value of the nonlinear-fit branch.  The constant-one pow
kernel agrees with np.power at exponent 0 on every base. -/
theorem C9_r2_negative_counterexample :
    (fit_hq_params ops1 cf10 exH2 exQ2).r2 < 0 := by
  norm_num [fit_hq_params, usable_pairs, exH2, exQ2, cf10, ops1, r2_rmse,
    qsum, List.zip_cons_cons, List.filterMap_cons]

/-- Claim C9 as amended: every FitResult has r2 <= 1, with r2 computed as
1 - SS_res/SS_tot when SS_tot > 0 and exactly 0 otherwise (never an
infinity); rmse is the +inf sentinel or sqrt of a nonnegative quantity,
hence nonnegative; and whenever the nonlinear fit is unavailable or
fails (the oracle returns none) the result additionally has r2 >= 0 —
the nonlinear-fit branch alone can go below 0, as the counterexample
shows. -/
theorem C9_r2_bounds (ops : NumOps)
    (cf : List ℚ → List ℚ → Option (ℚ × ℚ × ℚ)) (H Q : List (Option ℚ))
    (hsq : ∀ x : ℚ, 0 ≤ x → 0 ≤ ops.sqrtf x) :
    (fit_hq_params ops cf H Q).r2 ≤ 1 ∧
    (cf ((usable_pairs H Q).map Prod.fst) ((usable_pairs H Q).map Prod.snd) =
        none → 0 ≤ (fit_hq_params ops cf H Q).r2) ∧
    ((usable_pairs H Q).length < 5 → (fit_hq_params ops cf H Q).r2 = 0) ∧
    ((fit_hq_params ops cf H Q).rmse = RExt.inf ∨
      ∃ q, (fit_hq_params ops cf H Q).rmse = RExt.fin q ∧ 0 ≤ q) ∧
    (∀ yt yp : List ℚ, (r2_rmse ops yt yp).1 =
      if 0 < yt.foldl (fun s t => s + (t - qsum yt / (yt.length : ℚ)) ^ 2) 0
      then 1 - ((yt.zip yp).foldl (fun s p => s + (p.1 - p.2) ^ 2) 0) /
        (yt.foldl (fun s t => s + (t - qsum yt / (yt.length : ℚ)) ^ 2) 0)
      else 0) := by
  have hform : ∀ yt yp : List ℚ, (r2_rmse ops yt yp).1 =
      if 0 < yt.foldl (fun s t => s + (t - qsum yt / (yt.length : ℚ)) ^ 2) 0
      then 1 - ((yt.zip yp).foldl (fun s p => s + (p.1 - p.2) ^ 2) 0) /
        (yt.foldl (fun s t => s + (t - qsum yt / (yt.length : ℚ)) ^ 2) 0)
      else 0 := fun yt yp => rfl
  simp only [fit_hq_params]
  split_ifs with h5
  · exact ⟨by simp [default_fit], fun _ => by simp [default_fit],
      fun _ => by simp [default_fit], Or.inl rfl, hform⟩
  · rcases hcf : cf ((usable_pairs H Q).map Prod.fst)
        ((usable_pairs H Q).map Prod.snd) with _ | ⟨a, b, H0⟩
    · simp only [hcf]
      have hinv := foldl_fit_step_inv ops hsq
        ((usable_pairs H Q).map Prod.fst) ((usable_pairs H Q).map Prod.snd)
        grid101 default_fit ⟨le_rfl, by simp [default_fit], Or.inl rfl⟩
      exact ⟨hinv.2.1, fun _ => hinv.1, fun hlt => absurd hlt h5,
        hinv.2.2, hform⟩
    · simp only [hcf]
      refine ⟨r2_rmse_r2_le_one ops _ _, fun hc => ?_,
        fun hlt => absurd hlt h5, ?_, hform⟩
      · cases hc
      · exact Or.inr ⟨_, rfl, r2_rmse_rmse_nonneg ops hsq _ _⟩

/-- Witness for C9 at empty data with the identity sqrt (which maps
nonnegatives to nonnegatives): the sentinel respects both bounds. -/
theorem C9_r2_bounds_witness :
    (fit_hq_params ⟨fun _ _ => 0, id, id, id⟩ (fun _ _ => none) [] []).r2 ≤
      1 ∧
    ((fit_hq_params ⟨fun _ _ => 0, id, id, id⟩ (fun _ _ => none)
        [] []).rmse = RExt.inf ∨
      ∃ q, (fit_hq_params ⟨fun _ _ => 0, id, id, id⟩ (fun _ _ => none)
        [] []).rmse = RExt.fin q ∧ 0 ≤ q) := by
  have h := C9_r2_bounds ⟨fun _ _ => 0, id, id, id⟩ (fun _ _ => none) [] []
    (fun x hx => hx)
  exact ⟨h.1, h.2.2.2.1⟩

/-- Claim C10: evaluate_and_store never clears an active flag — one step
preserves every true entry, hence any sequence of invocations does — and
once active[name] holds, debounce suppression reduces to the elapsed-time
comparison against the shared clock. -/
theorem C10_active_monotone :
    (∀ (c : EvalCall) (st : AlertState) (name : String),
      st.active name = true →
      (evaluate_and_store c.rules c.node_id c.ts c.forecasts c.dH_10m
        c.rain_next_hour c.now st).1.active name = true) ∧
    (∀ (calls : List EvalCall) (st : AlertState) (name : String),
      st.active name = true → (run_calls calls st).active name = true) ∧
    (∀ (now : ℚ) (w : ℤ) (st : AlertState) (name : String),
      st.active name = true →
      (debounced now w st name ↔ now - st.last_ts < (w : ℚ))) := by
  have hstep : ∀ (c : EvalCall) (st : AlertState) (name : String),
      st.active name = true →
      (evaluate_and_store c.rules c.node_id c.ts c.forecasts c.dH_10m
        c.rain_next_hour c.now st).1.active name = true := by
    intro c st name h
    simp only [evaluate_and_store]
    exact evalHigh_active_mono _ _ _ _ _ _ _
      (evalEarly_active_mono _ _ _ _ _ _ _ _ _ h)
  refine ⟨hstep, ?_, ?_⟩
  · intro calls
    induction calls with
    | nil => intro st name h; exact h
    | cons c rest ih =>
        intro st name h
        exact ih _ name (hstep c st name h)
  · intro now w st name h
    rw [debounced]
    simp [h]

/-- Witness for C10: an already-active high flag survives an empty call
sequence and a concrete single call. -/
theorem C10_active_monotone_witness :
    (run_calls [] ⟨0, fun _ => true⟩).active "high" = true ∧
    (evaluate_and_store ⟨none, none, none⟩ "n" "t"
      (fun _ => none) none none 5 ⟨0, fun _ => true⟩).1.active "high" =
      true :=
  ⟨C10_active_monotone.2.1 [] ⟨0, fun _ => true⟩ "high" rfl,
   C10_active_monotone.1
     ⟨⟨none, none, none⟩, "n", "t", fun _ => none, none, none, 5⟩
     ⟨0, fun _ => true⟩ "high" rfl⟩

end FloodAlert

namespace FloodAlert

/-- Witness for C6 at a concrete spike: the SPIKES_H characterisation
applied at dH_10m = 1/5. -/
theorem C6_qc_rules_witness :
    "SPIKES_H" ∈ qc_flag_list none none (some (1 / 5)) none 1000 :=
  ((C6_qc_rules.1 none none (some (1 / 5)) none 1000).2.2.1).mpr
    ⟨1 / 5, rfl, by norm_num [abs_of_nonneg]⟩

/-- Witness for C8: with an empty configuration and a probability-one
forecast at the default horizon 6, a fresh state emits an early alert. -/
theorem C8_early_trigger_witness :
    (evalEarly ⟨none, none, none⟩ "n" "t"
      (fun h => if h = 6 then some (some 1) else none) none none 0
      ⟨0, fun _ => false⟩).2 ≠ [] :=
  (C8_early_trigger.1 ⟨none, none, none⟩ "n" "t"
    (fun h => if h = 6 then some (some 1) else none) none none 0
    ⟨0, fun _ => false⟩).mpr
    ⟨⟨some 1, by norm_num [early_params], Or.inl (by norm_num [early_params])⟩,
     fun hdb => by simp [debounced] at hdb⟩

end FloodAlert
